import Mathlib

/-!
Shallow embedding of `cmd/rmadison-server/main.go` from gjolly/go-rmadison.

The only repository source file is `main.go`; the packages
`pkg/archive`, `pkg/database` and `pkg/debianpkg` are external to it, so
their behaviour is abstracted: an archive's store lookup
(`Database.GetPackage`) is carried as a function field of `Archive`, and
the per-pass outcome of `archive.RefreshCache` is an oracle `errs`.
-/

/-- One package record, `debianpkg.PackageInfo`.
Modelled from the spec: the record carries at least
\x7bpackage, version, architecture, component, pocket, source\x7d. -/
structure PackageInfo where
  package : String
  version : String
  architecture : String
  component : String
  pocket : String
  source : String
deriving DecidableEq, Repr

/-- A parsed URL, `net/url.URL`; only its identity matters to the claims,
so it is carried as its raw string. -/
structure URL where
  raw : String
deriving DecidableEq, Repr

/-- The result of a store lookup, `Database.GetPackage` in Go:
a record list or an error. -/
def GetResult : Type := Except String (List PackageInfo)

/-- `pkg/archive.Archive` as constructed and used by `main.go`:
base URL, ports URL, pockets, cache directory, shared HTTP client handle,
and the owned store, carried as its `GetPackage` operation
(modelled from the spec: `get(packageName)` returns every stored record
for that name, or an error). -/
structure Archive where
  baseURL : URL
  portsURL : URL
  pockets : List String
  cacheDir : String
  client : Nat
  database : String → GetResult

/-- `strings.TrimLeft(s, "/")`: remove every leading slash character. -/
def trimLeftSlashes (s : String) : String :=
  String.mk (s.data.dropWhile (fun c => c = '/'))

/-- `strings.Contains(pkg, "/")`: for the single-character needle `/` this
holds exactly when some character of the string is a slash. -/
def containsSlash (s : String) : Bool :=
  s.data.any (fun c => c = '/')

/-- JSON serialization of one record by `encoding/json`.
Modelled from the spec: a JSON object with at least the fields
package, version, architecture, component, pocket, source. -/
def marshalInfo (p : PackageInfo) : String :=
  "\x7b\"package\":\"" ++ p.package ++ "\",\"version\":\"" ++ p.version ++
    "\",\"architecture\":\"" ++ p.architecture ++ "\",\"component\":\"" ++
    p.component ++ "\",\"pocket\":\"" ++ p.pocket ++ "\",\"source\":\"" ++
    p.source ++ "\"\x7d"

/-- `encoding/json.Marshal` on a Go slice of records: a nil slice marshals
to `null`, a non-nil slice to a JSON array (empty slice to `[]`). -/
def jsonMarshalSlice : Option (List PackageInfo) → String
  | none => "null"
  | some l => "[" ++ String.intercalate "," (l.map marshalInfo) ++ "]"

/-- The three responses `httpHandler.ServeHTTP` can produce: 404 with no
body, 500 with no body, or 200 with a JSON body. -/
inductive HttpResponse where
  | notFound
  | internalServerError
  | ok (body : String)
deriving DecidableEq, Repr

/-- The `for _, cache := range h.Caches` loop of `ServeHTTP`
(`main.go:48-57`): starting from accumulator `acc` (initially the non-nil
empty slice `make(..., 0)`), query each archive's store in configuration
order, appending results; return on the first store error.  The second
component is the ghost log of store queries made, one entry (the looked-up
name) per `GetPackage` call. -/
def serveLoop : List Archive → String → List PackageInfo →
    Except String (List PackageInfo) × List String
  | [], _, acc => (.ok acc, [])
  | c :: rest, pkg, acc =>
    match c.database pkg with
    | .error e => (.error e, [pkg])
    | .ok infos =>
      let r := serveLoop rest pkg (acc ++ infos)
      (r.1, pkg :: r.2)

/-- `httpHandler.ServeHTTP` (`main.go:39-67`): trim leading slashes from
the URL path, reject names still containing a slash with 404, otherwise
run the per-archive lookup loop; a store error yields 500, success yields
200 with the JSON array of all collected records.  The second component is
the ghost log of store queries performed. -/
def serveHTTP (caches : List Archive) (urlPath : String) :
    HttpResponse × List String :=
  let pkg := trimLeftSlashes urlPath
  if containsSlash pkg then (.notFound, [])
  else
    match serveLoop caches pkg [] with
    | (.error _, qs) => (.internalServerError, qs)
    | (.ok infos, qs) => (.ok (jsonMarshalSlice (some infos)), qs)

/-- Extract the record list of a successful store result (empty on error);
used to state what the lookup concatenates. -/
def okList : GetResult → List PackageInfo
  | .error _ => []
  | .ok l => l

/-- Whether a store result is a success. -/
def isOkE : GetResult → Bool
  | .error _ => false
  | .ok _ => true

/-- The observable events of one archive's refresh goroutine
(`refreshCaches`, `main.go:69-87`): a refresh pass carrying the `force`
flag passed to `RefreshCache` and whether the pass returned an error, the
error or info log line that follows, and the wait on the 5-minute ticker
channel. -/
inductive RefreshEvent where
  | pass (force : Bool) (failed : Bool)
  | logError
  | logInfo
  | tickWait (minutes : Nat)
deriving DecidableEq, Repr

/-- Trace of the first `n` iterations of one archive's refresh loop
starting at iteration `k` (`main.go:71-85`).  Each iteration calls
`cache.RefreshCache(false)`, logs an error line or an info line depending
on the pass outcome, then blocks on the 5-minute ticker.  `errs i` is the
oracle saying whether `RefreshCache` (external `pkg/archive` code)
returned an error on pass `i`. -/
def refreshLoopTrace (errs : Nat → Bool) : Nat → Nat → List RefreshEvent
  | _, 0 => []
  | k, n + 1 =>
    RefreshEvent.pass false (errs k)
      :: (if errs k then RefreshEvent.logError else RefreshEvent.logInfo)
      :: RefreshEvent.tickWait 5
      :: refreshLoopTrace errs (k + 1) n

/-- Number of refresh passes in a trace. -/
def passCount (tr : List RefreshEvent) : Nat :=
  tr.countP (fun e => match e with | .pass _ _ => true | _ => false)

/-- Number of refresh passes invoked with `force = true` in a trace. -/
def forcedPassCount (tr : List RefreshEvent) : Nat :=
  tr.countP (fun e => match e with | .pass true _ => true | _ => false)

/-- `archiveYAMLConf` (`main.go:111-116`): one archive entry of the YAML
configuration.  Absent YAML strings decode to the empty string. -/
structure ArchiveYAMLConf where
  baseURL : String
  portsURL : String
  database : String
  pockets : List String
deriving DecidableEq, Repr

/-- The raw configuration decoded from the YAML file
(`main.go:143-146`). -/
structure RawConfig where
  cacheDirectory : String
  archives : List ArchiveYAMLConf

/-- A database connection as produced by `database.NewConn`, carried as
its `GetPackage` operation. -/
def DBConn : Type := String → GetResult

/-- `Config` (`main.go:107-109`). -/
structure Config where
  caches : List Archive

/-- The body of the `for i, archiveConf := range rawConfig.Archives` loop
of `parseConfig` (`main.go:153-184`) for one entry: reject an empty
`base_url`, parse the base URL, default an empty `ports_url` to the base
URL and parse it, open the database connection, and build the
`archive.Archive` value.  `urlParse` models `net/url.Parse` and `newConn`
models `database.NewConn` (both external code). -/
def buildArchive (urlParse : String → Except String URL)
    (newConn : String → Except String DBConn) (cacheDir : String)
    (client : Nat) (i : Nat) (ac : ArchiveYAMLConf) :
    Except String Archive :=
  if ac.baseURL = "" then
    .error ("missing base_url for archive " ++ toString i)
  else
    match urlParse ac.baseURL with
    | .error e => .error e
    | .ok baseURL =>
      match urlParse (if ac.portsURL = "" then ac.baseURL else ac.portsURL) with
      | .error e => .error e
      | .ok portsURL =>
        match newConn ac.database with
        | .error e =>
          .error ("failed to connect to database " ++ ac.database ++ ": " ++ e)
        | .ok db =>
          .ok { baseURL := baseURL, portsURL := portsURL,
                pockets := ac.pockets, cacheDir := cacheDir,
                client := client, database := db }

/-- The archive loop of `parseConfig`: process the entries in order,
returning the first error encountered. -/
def parseConfigLoop (urlParse : String → Except String URL)
    (newConn : String → Except String DBConn) (cacheDir : String)
    (client : Nat) : Nat → List ArchiveYAMLConf → Except String (List Archive)
  | _, [] => .ok []
  | i, ac :: rest =>
    match buildArchive urlParse newConn cacheDir client i ac with
    | .error e => .error e
    | .ok a =>
      match parseConfigLoop urlParse newConn cacheDir client (i + 1) rest with
      | .error e => .error e
      | .ok as => .ok (a :: as)

/-- `parseConfig` (`main.go:118-187`): `configFile` is `none` when no
config file could be opened at any of the candidate paths, otherwise the
decoded raw configuration. -/
def parseConfig (urlParse : String → Except String URL)
    (newConn : String → Except String DBConn) (client : Nat)
    (configFile : Option RawConfig) : Except String Config :=
  match configFile with
  | none => .error "cannot find any config file"
  | some raw =>
    match parseConfigLoop urlParse newConn raw.cacheDirectory client 0
        raw.archives with
    | .error e => .error e
    | .ok caches => .ok { caches := caches }

/-- Outcome of process startup: `log.Fatal` terminates the process before
any refresh loop or HTTP serving starts; otherwise the process starts the
refresh loops and serves with the parsed caches. -/
inductive StartupResult where
  | fatal (msg : String)
  | serving (caches : List Archive)

/-- The startup sequence of `main` (`main.go:198-210`): a `parseConfig`
error is fatal, a configuration with zero archives is fatal, and only
otherwise do the refresh loops and the HTTP server start, over exactly the
parsed caches. -/
def mainStartup (urlParse : String → Except String URL)
    (newConn : String → Except String DBConn) (client : Nat)
    (configFile : Option RawConfig) : StartupResult :=
  match parseConfig urlParse newConn client configFile with
  | .error e => .fatal ("failed to read config file: " ++ e)
  | .ok conf =>
    if conf.caches.length = 0 then .fatal "No archive defined in config file"
    else .serving conf.caches

/-- Whether startup terminated the process (so neither refreshing nor
serving ever began). -/
def isFatal : StartupResult → Bool
  | .fatal _ => true
  | .serving _ => false

/-- Whether an `Except` result is an error. -/
def isErrorX {α : Type} : Except String α → Bool
  | .error _ => true
  | .ok _ => false

/-- Sample record used by concrete witnesses. -/
def rec1 : PackageInfo :=
  ⟨"foo", "1.0", "amd64", "main", "stable", "foo"⟩

/-- Second sample record used by concrete witnesses. -/
def rec2 : PackageInfo :=
  ⟨"foo", "2.0", "arm64", "universe", "stable-updates", "foo-src"⟩

/-- A concrete archive whose store always answers with one record. -/
def archA : Archive :=
  { baseURL := ⟨"http://a.example"⟩, portsURL := ⟨"http://a.example"⟩,
    pockets := ["stable"], cacheDir := "/var/cache", client := 0,
    database := fun _ => .ok [rec1] }

/-- A concrete archive whose store knows two records for `foo` and none
otherwise. -/
def archB : Archive :=
  { baseURL := ⟨"http://b.example"⟩, portsURL := ⟨"http://b.example"⟩,
    pockets := ["stable", "stable-updates"], cacheDir := "/var/cache",
    client := 0, database := fun n => if n = "foo" then .ok [rec1, rec2] else .ok [] }

/-- A concrete archive whose store always fails. -/
def archErr : Archive :=
  { baseURL := ⟨"http://c.example"⟩, portsURL := ⟨"http://c.example"⟩,
    pockets := ["stable"], cacheDir := "/var/cache", client := 0,
    database := fun _ => .error "db broken" }

/-- A concrete archive whose store is empty. -/
def archEmpty : Archive :=
  { baseURL := ⟨"http://d.example"⟩, portsURL := ⟨"http://d.example"⟩,
    pockets := ["stable"], cacheDir := "/var/cache", client := 0,
    database := fun _ => .ok [] }

/-- A url parser for concrete witnesses: wraps the string. -/
def sampleURLParse (s : String) : Except String URL := .ok ⟨s⟩

/-- A connection opener for concrete witnesses: an empty store. -/
def sampleNewConn (_s : String) : Except String DBConn :=
  .ok (fun _ => .ok [])

/-- A concrete archive entry with no `ports_url`. -/
def acNoPorts : ArchiveYAMLConf :=
  ⟨"http://a.example", "", "a.db", ["stable"]⟩

/-- An archive entry that cannot be built: empty `base_url`, an
unparseable URL, or a failing database connection
(the conditions `parseConfig` rejects, `main.go:153-175`). -/
def badArchiveConf (urlParse : String → Except String URL)
    (newConn : String → Except String DBConn) (ac : ArchiveYAMLConf) : Prop :=
  ac.baseURL = ""
  ∨ isErrorX (urlParse ac.baseURL) = true
  ∨ isErrorX (urlParse (if ac.portsURL = "" then ac.baseURL else ac.portsURL)) = true
  ∨ isErrorX (newConn ac.database) = true

/-- Dropping one full loop iteration (three events) from a refresh trace
leaves the trace of the remaining iterations. -/
lemma refreshLoopTrace_drop_three (errs : Nat → Bool) (k n : Nat) :
    (refreshLoopTrace errs k (n + 1)).drop 3 = refreshLoopTrace errs (k + 1) n := rfl

/-- Dropping `3 * i` events from a refresh trace of `i + m` iterations
leaves the trace of the last `m` iterations. -/
lemma refreshLoopTrace_drop (errs : Nat → Bool) :
    ∀ (i m k : Nat),
      (refreshLoopTrace errs k (i + m)).drop (3 * i) =
        refreshLoopTrace errs (k + i) m := by
  intro i
  induction i with
  | zero => intro m k; simp
  | succ i ih =>
    intro m k
    have harith : 3 * (i + 1) = 3 * i + 3 := by ring
    have hlen : i + 1 + m = (i + m) + 1 := by omega
    rw [harith, hlen, ← List.drop_drop]
    have h1 := ih (m + 1) k
    have e : i + (m + 1) = i + m + 1 := by omega
    rw [e] at h1
    rw [h1, refreshLoopTrace_drop_three]
    have : k + i + 1 = k + (i + 1) := by omega
    rw [this]

/-- The three events of iteration `i` of a refresh loop trace: the
unforced pass, its log line, and the 5-minute tick wait. -/
lemma refreshLoopTrace_get (errs : Nat → Bool) (k n i : Nat) (h : i < n) :
    (refreshLoopTrace errs k n).get? (3 * i) =
      some (RefreshEvent.pass false (errs (k + i)))
    ∧ (refreshLoopTrace errs k n).get? (3 * i + 1) =
      some (if errs (k + i) then RefreshEvent.logError else RefreshEvent.logInfo)
    ∧ (refreshLoopTrace errs k n).get? (3 * i + 2) =
      some (RefreshEvent.tickWait 5) := by
  obtain ⟨m, rfl⟩ : ∃ m, n = i + (m + 1) := ⟨n - i - 1, by omega⟩
  have hd := refreshLoopTrace_drop errs i (m + 1) k
  refine ⟨?_, ?_, ?_⟩
  · have := List.get?_drop (refreshLoopTrace errs k (i + (m + 1))) (3 * i) 0
    rw [hd] at this
    rw [show 3 * i = 3 * i + 0 from rfl, ← this]
    rfl
  · have := List.get?_drop (refreshLoopTrace errs k (i + (m + 1))) (3 * i) 1
    rw [hd] at this
    rw [← this]
    rfl
  · have := List.get?_drop (refreshLoopTrace errs k (i + (m + 1))) (3 * i) 2
    rw [hd] at this
    rw [← this]
    rfl

/-- A refresh trace of `n` iterations contains exactly `n` passes,
whatever the pass outcomes. -/
lemma passCount_refreshLoopTrace (errs : Nat → Bool) :
    ∀ n k, passCount (refreshLoopTrace errs k n) = n := by
  intro n
  induction n with
  | zero => intro k; rfl
  | succ n ih =>
    intro k
    simp only [refreshLoopTrace, passCount, List.countP_cons]
    have := ih (k + 1)
    simp only [passCount] at this
    cases herr : errs k <;> simp [this]

/-- No pass of a refresh trace carries `force = true`. -/
lemma forcedPassCount_refreshLoopTrace (errs : Nat → Bool) :
    ∀ n k, forcedPassCount (refreshLoopTrace errs k n) = 0 := by
  intro n
  induction n with
  | zero => intro k; rfl
  | succ n ih =>
    intro k
    simp only [refreshLoopTrace, forcedPassCount, List.countP_cons]
    have := ih (k + 1)
    simp only [forcedPassCount] at this
    cases herr : errs k <;> simp [this]

/-- When every store succeeds, the handler loop returns the accumulator
followed by the per-archive results concatenated in configuration order,
and queries every store once with the looked-up name. -/
lemma serveLoop_ok :
    ∀ (caches : List Archive) (pkg : String) (acc : List PackageInfo),
      (∀ c ∈ caches, isOkE (c.database pkg) = true) →
      serveLoop caches pkg acc =
        (.ok (acc ++ (caches.map fun c => okList (c.database pkg)).flatten),
         List.replicate caches.length pkg) := by
  intro caches
  induction caches with
  | nil => intro pkg acc h; simp [serveLoop]
  | cons c rest ih =>
    intro pkg acc h
    have hc : isOkE (c.database pkg) = true := h c (List.mem_cons_self c rest)
    cases hdb : c.database pkg with
    | error e => rw [hdb] at hc; simp [isOkE] at hc
    | ok infos =>
      have hrest : ∀ c' ∈ rest, isOkE (c'.database pkg) = true :=
        fun c' hc' => h c' (List.mem_cons_of_mem c hc')
      simp [serveLoop, hdb, ih pkg (acc ++ infos) hrest, okList,
        List.append_assoc, List.replicate_succ]

/-- If some store fails, the handler loop returns an error. -/
lemma serveLoop_error :
    ∀ (caches : List Archive) (pkg : String) (acc : List PackageInfo),
      (∃ c ∈ caches, isOkE (c.database pkg) = false) →
      ∃ e qs, serveLoop caches pkg acc = (Except.error e, qs) := by
  intro caches
  induction caches with
  | nil => intro pkg acc h; rcases h with ⟨c, hm, _⟩; simp at hm
  | cons c rest ih =>
    intro pkg acc h
    cases hdb : c.database pkg with
    | error e => exact ⟨e, [pkg], by simp [serveLoop, hdb]⟩
    | ok infos =>
      rcases h with ⟨c', hm, hbad⟩
      rcases List.mem_cons.mp hm with rfl | hm
      · rw [hdb] at hbad; simp [isOkE] at hbad
      · rcases ih pkg (acc ++ infos) ⟨c', hm, hbad⟩ with ⟨e, qs, heq⟩
        exact ⟨e, pkg :: qs, by simp [serveLoop, hdb, heq]⟩

/-- A bad archive entry makes `buildArchive` fail. -/
lemma buildArchive_bad (urlParse : String → Except String URL)
    (newConn : String → Except String DBConn) (cacheDir : String)
    (client i : Nat) (ac : ArchiveYAMLConf)
    (h : badArchiveConf urlParse newConn ac) :
    isErrorX (buildArchive urlParse newConn cacheDir client i ac) = true := by
  unfold buildArchive
  by_cases hb : ac.baseURL = ""
  · rw [if_pos hb]; rfl
  · rw [if_neg hb]
    cases hub : urlParse ac.baseURL with
    | error e => rfl
    | ok bu =>
      cases hup : urlParse (if ac.portsURL = "" then ac.baseURL else ac.portsURL) with
      | error e => rfl
      | ok pu =>
        cases hnc : newConn ac.database with
        | error e => rfl
        | ok db =>
          exfalso
          rcases h with h | h | h | h
          · exact hb h
          · rw [hub] at h; simp [isErrorX] at h
          · rw [hup] at h; simp [isErrorX] at h
          · rw [hnc] at h; simp [isErrorX] at h

/-- A bad entry anywhere in the list makes the config loop fail. -/
lemma parseConfigLoop_bad (urlParse : String → Except String URL)
    (newConn : String → Except String DBConn) (cacheDir : String)
    (client : Nat) :
    ∀ (acs : List ArchiveYAMLConf) (i : Nat),
      (∃ ac ∈ acs, badArchiveConf urlParse newConn ac) →
      isErrorX (parseConfigLoop urlParse newConn cacheDir client i acs) = true := by
  intro acs
  induction acs with
  | nil => intro i h; rcases h with ⟨ac, hm, _⟩; simp at hm
  | cons c rest ih =>
    intro i h
    rcases h with ⟨ac, hm, hbad⟩
    rcases List.mem_cons.mp hm with rfl | hm
    · have hba := buildArchive_bad urlParse newConn cacheDir client i ac hbad
      unfold parseConfigLoop
      cases hb : buildArchive urlParse newConn cacheDir client i ac with
      | error e => rfl
      | ok a => rw [hb] at hba; simp [isErrorX] at hba
    · unfold parseConfigLoop
      cases hb : buildArchive urlParse newConn cacheDir client i c with
      | error e => rfl
      | ok a =>
        have hloop := ih (i + 1) ⟨ac, hm, hbad⟩
        cases hl : parseConfigLoop urlParse newConn cacheDir client (i + 1) rest with
        | error e => rfl
        | ok as => rw [hl] at hloop; simp [isErrorX] at hloop

/-- C5 counterexample: in a concrete startup run of the refresh loop
(three iterations, none failing) not a single pass carries `force = true`
— the first pass, at process startup, is already `force = false` — so the
scheduler does not use `force = true` exactly once at startup
(`main.go:75` passes the literal `false` on every iteration). -/
theorem C5_counterexample :
    forcedPassCount (refreshLoopTrace (fun _ => false) 0 3) = 0
    ∧ (refreshLoopTrace (fun _ => false) 0 3).get? 0 =
        some (RefreshEvent.pass false false) := by
  exact ⟨by decide, by decide⟩

/-- C5 (amended): every refresh pass, including the first one at process
startup, is invoked with `force = false`; the first event of each
archive's loop is that unforced pass (it runs as soon as the loop starts,
before any tick wait), and a failing pass never reduces the number of
passes executed, so a startup refresh failure does not prevent the process
from serving what is already on disk. -/
theorem C5_startup_unforced (errs : Nat → Bool) (n : Nat) (h : 1 ≤ n) :
    forcedPassCount (refreshLoopTrace errs 0 n) = 0
    ∧ (refreshLoopTrace errs 0 n).get? 0 =
        some (RefreshEvent.pass false (errs 0))
    ∧ passCount (refreshLoopTrace errs 0 n) = n := by
  refine ⟨forcedPassCount_refreshLoopTrace errs n 0, ?_,
    passCount_refreshLoopTrace errs n 0⟩
  have := (refreshLoopTrace_get errs 0 n 0 (by omega)).1
  simpa using this

/-- C5 witness: a run of two iterations whose startup pass fails. -/
theorem C5_startup_unforced_witness :
    1 ≤ 2
    ∧ (forcedPassCount (refreshLoopTrace (fun _ => true) 0 2) = 0
      ∧ (refreshLoopTrace (fun _ => true) 0 2).get? 0 =
          some (RefreshEvent.pass false true)
      ∧ passCount (refreshLoopTrace (fun _ => true) 0 2) = 2) :=
  ⟨by decide, C5_startup_unforced (fun _ => true) 2 (by decide)⟩

/-- C6: every refresh pass after the first sits immediately after a
5-minute tick-wait event in the loop trace and is invoked with
`force = false` (`main.go:71-85`: the ticker is created with
`5 * time.Minute` and `RefreshCache` is always called with `false`). -/
theorem C6_tick_then_pass (errs : Nat → Bool) (n k : Nat) (h : k + 1 < n) :
    (refreshLoopTrace errs 0 n).get? (3 * (k + 1)) =
      some (RefreshEvent.pass false (errs (k + 1)))
    ∧ (refreshLoopTrace errs 0 n).get? (3 * k + 2) =
      some (RefreshEvent.tickWait 5)
    ∧ 3 * (k + 1) = (3 * k + 2) + 1 := by
  have h1 := (refreshLoopTrace_get errs 0 n (k + 1) h).1
  have h2 := (refreshLoopTrace_get errs 0 n k (by omega)).2.2
  exact ⟨by simpa using h1, h2, by ring⟩

/-- C6 witness: a concrete run where every pass fails. -/
theorem C6_tick_then_pass_witness :
    1 + 1 < 4
    ∧ ((refreshLoopTrace (fun _ => true) 0 4).get? (3 * (1 + 1)) =
        some (RefreshEvent.pass false true)
      ∧ (refreshLoopTrace (fun _ => true) 0 4).get? (3 * 1 + 2) =
        some (RefreshEvent.tickWait 5)
      ∧ 3 * (1 + 1) = (3 * 1 + 2) + 1) :=
  ⟨by decide, C6_tick_then_pass (fun _ => true) 4 1 (by decide)⟩

/-- C7: a failing pass never terminates the refresh loop: the trace still
contains one pass per iteration whatever the error pattern; the failing
pass is followed by the error log line and the tick wait, and the next
iteration's pass (again unforced) follows — the loop retries instead of
stopping, and no event of the loop touches the serving path
(`main.go:73-84`). -/
theorem C7_error_never_stops (errs : Nat → Bool) (n k : Nat) (hk : k < n)
    (he : errs k = true) :
    passCount (refreshLoopTrace errs 0 n) = n
    ∧ (refreshLoopTrace errs 0 n).get? (3 * k) =
        some (RefreshEvent.pass false true)
    ∧ (refreshLoopTrace errs 0 n).get? (3 * k + 1) = some RefreshEvent.logError
    ∧ (refreshLoopTrace errs 0 n).get? (3 * k + 2) =
        some (RefreshEvent.tickWait 5)
    ∧ (k + 1 < n →
        (refreshLoopTrace errs 0 n).get? (3 * (k + 1)) =
          some (RefreshEvent.pass false (errs (k + 1)))) := by
  have h1 := refreshLoopTrace_get errs 0 n k hk
  rw [Nat.zero_add, he] at h1
  refine ⟨passCount_refreshLoopTrace errs n 0, h1.1, by simpa using h1.2.1,
    h1.2.2, ?_⟩
  intro hlt
  have h2 := (refreshLoopTrace_get errs 0 n (k + 1) hlt).1
  simpa using h2

/-- C7 witness: a two-iteration run whose first pass fails. -/
theorem C7_error_never_stops_witness :
    (0 < 2 ∧ (fun _ => true : Nat → Bool) 0 = true)
    ∧ (passCount (refreshLoopTrace (fun _ => true) 0 2) = 2
      ∧ (refreshLoopTrace (fun _ => true) 0 2).get? (3 * 0) =
          some (RefreshEvent.pass false true)
      ∧ (refreshLoopTrace (fun _ => true) 0 2).get? (3 * 0 + 1) =
          some RefreshEvent.logError
      ∧ (refreshLoopTrace (fun _ => true) 0 2).get? (3 * 0 + 2) =
          some (RefreshEvent.tickWait 5)
      ∧ (0 + 1 < 2 →
          (refreshLoopTrace (fun _ => true) 0 2).get? (3 * (0 + 1)) =
            some (RefreshEvent.pass false ((fun _ => true : Nat → Bool) (0 + 1))))) :=
  ⟨⟨by decide, rfl⟩, C7_error_never_stops (fun _ => true) 2 0 (by decide) rfl⟩

/-- C1: a lookup concatenates, in configuration order, each configured
archive's own `get(name)` result, with no cross-archive deduplication, so
its length is the sum of the per-archive result lengths
(`main.go:48-57`). -/
theorem C1_lookup_concat (caches : List Archive) (pkg : String)
    (h : ∀ c ∈ caches, isOkE (c.database pkg) = true) :
    (serveLoop caches pkg []).1 =
      .ok ((caches.map fun c => okList (c.database pkg)).flatten)
    ∧ ((caches.map fun c => okList (c.database pkg)).flatten).length =
      (caches.map fun c => (okList (c.database pkg)).length).sum := by
  refine ⟨by rw [serveLoop_ok caches pkg [] h]; rfl, ?_⟩
  rw [List.length_flatten, List.map_map]
  rfl

/-- C1 witness: two concrete archives, both succeeding. -/
theorem C1_lookup_concat_witness :
    (∀ c ∈ [archA, archB], isOkE (c.database "foo") = true)
    ∧ ((serveLoop [archA, archB] "foo" []).1 =
        .ok (([archA, archB].map fun c => okList (c.database "foo")).flatten)
      ∧ (([archA, archB].map fun c => okList (c.database "foo")).flatten).length =
        ([archA, archB].map fun c => (okList (c.database "foo")).length).sum) := by
  have h : ∀ c ∈ [archA, archB], isOkE (c.database "foo") = true := by
    intro c hc
    rcases List.mem_cons.mp hc with rfl | hc
    · rfl
    rcases List.mem_cons.mp hc with rfl | hc
    · rfl
    · simp at hc
  exact ⟨h, C1_lookup_concat [archA, archB] "foo" h⟩

/-- C2: a lookup is fail-fast — if any configured archive's store errors
on the name, the handler answers 500 with no records (`main.go:49-57`). -/
theorem C2_fail_fast (caches : List Archive) (urlPath : String)
    (hs : containsSlash (trimLeftSlashes urlPath) = false)
    (h : ∃ c ∈ caches, isOkE (c.database (trimLeftSlashes urlPath)) = false) :
    (serveHTTP caches urlPath).1 = .internalServerError := by
  rcases serveLoop_error caches (trimLeftSlashes urlPath) [] h with ⟨e, qs, heq⟩
  simp [serveHTTP, hs, heq]

/-- C2 witness: one healthy archive followed by a broken one. -/
theorem C2_fail_fast_witness :
    containsSlash (trimLeftSlashes "foo") = false
    ∧ (∃ c ∈ [archA, archErr], isOkE (c.database (trimLeftSlashes "foo")) = false)
    ∧ (serveHTTP [archA, archErr] "foo").1 = .internalServerError := by
  have hs : containsSlash (trimLeftSlashes "foo") = false := by decide
  have h : ∃ c ∈ [archA, archErr],
      isOkE (c.database (trimLeftSlashes "foo")) = false :=
    ⟨archErr, by simp, rfl⟩
  exact ⟨hs, h, C2_fail_fast [archA, archErr] "foo" hs h⟩

/-- C3: a request whose trimmed package name still contains a path
separator is answered 404 and no archive store is ever queried
(`main.go:40-46`). -/
theorem C3_slash_rejected (caches : List Archive) (urlPath : String)
    (h : containsSlash (trimLeftSlashes urlPath) = true) :
    serveHTTP caches urlPath = (.notFound, []) := by
  simp [serveHTTP, h]

/-- C3 witness: the path `/a/b` against a concrete archive list. -/
theorem C3_slash_rejected_witness :
    containsSlash (trimLeftSlashes "/a/b") = true
    ∧ serveHTTP [archA, archB] "/a/b" = (.notFound, []) :=
  ⟨by decide, C3_slash_rejected [archA, archB] "/a/b" (by decide)⟩

/-- C4: when every archive's store succeeds with an empty result, the
handler answers 200 with the JSON body `[]` — an empty array, not `null`
and not an error (`main.go:48-66`). -/
theorem C4_empty_ok (caches : List Archive) (urlPath : String)
    (hs : containsSlash (trimLeftSlashes urlPath) = false)
    (h : ∀ c ∈ caches, c.database (trimLeftSlashes urlPath) = .ok []) :
    serveHTTP caches urlPath =
      (.ok "[]", List.replicate caches.length (trimLeftSlashes urlPath))
    ∧ jsonMarshalSlice none = "null" ∧ ("[]" : String) ≠ "null" := by
  have hok : ∀ c ∈ caches, isOkE (c.database (trimLeftSlashes urlPath)) = true := by
    intro c hc; rw [h c hc]; rfl
  have hjoin :
      ((caches.map fun c => okList (c.database (trimLeftSlashes urlPath))).flatten) = [] := by
    rw [List.flatten_eq_nil_iff]
    intro l hl
    rcases List.mem_map.mp hl with ⟨c, hc, rfl⟩
    rw [h c hc]; rfl
  have hloop := serveLoop_ok caches (trimLeftSlashes urlPath) [] hok
  rw [hjoin] at hloop
  refine ⟨?_, rfl, by decide⟩
  simp [serveHTTP, hs, hloop,
    show jsonMarshalSlice (some []) = "[]" from by decide]

/-- C4 witness: two concrete archives with empty stores for `bar`. -/
theorem C4_empty_ok_witness :
    containsSlash (trimLeftSlashes "/bar") = false
    ∧ (∀ c ∈ [archEmpty, archB], c.database (trimLeftSlashes "/bar") = .ok [])
    ∧ (serveHTTP [archEmpty, archB] "/bar" =
        (.ok "[]", List.replicate ([archEmpty, archB].length) (trimLeftSlashes "/bar"))
      ∧ jsonMarshalSlice none = "null" ∧ ("[]" : String) ≠ "null") := by
  have hs : containsSlash (trimLeftSlashes "/bar") = false := by decide
  have h : ∀ c ∈ [archEmpty, archB], c.database (trimLeftSlashes "/bar") = .ok [] := by
    intro c hc
    rcases List.mem_cons.mp hc with rfl | hc
    · rfl
    rcases List.mem_cons.mp hc with rfl | hc
    · simp [archB, trimLeftSlashes]
    · simp at hc
  exact ⟨hs, h, C4_empty_ok [archEmpty, archB] "/bar" hs h⟩

/-- C10: the handler strips all leading slashes — `///foo` is served
exactly like `foo` — and the bare root path `/` is not rejected: it looks
up the empty string against every archive's store (`main.go:40-57`). -/
theorem C10_trim_all_slashes (caches : List Archive)
    (h : ∀ c ∈ caches, isOkE (c.database "") = true) :
    trimLeftSlashes "///foo" = "foo"
    ∧ serveHTTP caches "///foo" = serveHTTP caches "foo"
    ∧ (serveHTTP caches "/").1 ≠ HttpResponse.notFound
    ∧ (serveHTTP caches "/").2 = List.replicate caches.length "" := by
  have htrim : trimLeftSlashes "///foo" = "foo" := by decide
  have htrim2 : trimLeftSlashes "foo" = "foo" := by decide
  have htrimr : trimLeftSlashes "/" = "" := by decide
  have hloop := serveLoop_ok caches "" [] h
  refine ⟨htrim, by simp [serveHTTP, htrim, htrim2], ?_, ?_⟩
  · simp [serveHTTP, htrimr, show containsSlash "" = false from rfl, hloop]
  · simp [serveHTTP, htrimr, show containsSlash "" = false from rfl, hloop]

/-- C10 witness: two concrete archives whose stores answer the empty
name. -/
theorem C10_trim_all_slashes_witness :
    (∀ c ∈ [archA, archEmpty], isOkE (c.database "") = true)
    ∧ (trimLeftSlashes "///foo" = "foo"
      ∧ serveHTTP [archA, archEmpty] "///foo" = serveHTTP [archA, archEmpty] "foo"
      ∧ (serveHTTP [archA, archEmpty] "/").1 ≠ HttpResponse.notFound
      ∧ (serveHTTP [archA, archEmpty] "/").2 =
          List.replicate ([archA, archEmpty].length) "") := by
  have h : ∀ c ∈ [archA, archEmpty], isOkE (c.database "") = true := by
    intro c hc
    rcases List.mem_cons.mp hc with rfl | hc
    · rfl
    rcases List.mem_cons.mp hc with rfl | hc
    · rfl
    · simp at hc
  exact ⟨h, C10_trim_all_slashes [archA, archEmpty] h⟩

/-- C8: when an archive entry's `ports_url` is absent (empty), the
constructed archive's ports URL is the parse of its base URL — hence equal
to its base URL — and otherwise it is the parse of the configured
`ports_url` (`main.go:163-171`). -/
theorem C8_ports_url_default (urlParse : String → Except String URL)
    (newConn : String → Except String DBConn) (cacheDir : String)
    (client i : Nat) (ac : ArchiveYAMLConf) (a : Archive)
    (hb : buildArchive urlParse newConn cacheDir client i ac = .ok a) :
    (ac.portsURL = "" → a.portsURL = a.baseURL)
    ∧ (ac.portsURL ≠ "" → urlParse ac.portsURL = .ok a.portsURL) := by
  unfold buildArchive at hb
  split at hb
  · cases hb
  · split at hb
    · cases hb
    next bu hub =>
      split at hb
      · cases hb
      next pu hup =>
        split at hb
        · cases hb
        next db hnc =>
          injection hb with hb
          subst hb
          constructor
          · intro hp
            rw [if_pos hp, hub] at hup
            injection hup with hup
            subst hup
            rfl
          · intro hp
            rw [if_neg hp] at hup
            exact hup

/-- C8 witness: a concrete entry whose `ports_url` is absent. -/
theorem C8_ports_url_default_witness :
    buildArchive sampleURLParse sampleNewConn "/var/cache" 0 0 acNoPorts =
      .ok { baseURL := ⟨"http://a.example"⟩, portsURL := ⟨"http://a.example"⟩,
            pockets := ["stable"], cacheDir := "/var/cache", client := 0,
            database := fun _ => .ok [] }
    ∧ ((acNoPorts.portsURL = "" →
        ({ baseURL := ⟨"http://a.example"⟩, portsURL := ⟨"http://a.example"⟩,
           pockets := ["stable"], cacheDir := "/var/cache", client := 0,
           database := fun _ => .ok [] } : Archive).portsURL =
        ({ baseURL := ⟨"http://a.example"⟩, portsURL := ⟨"http://a.example"⟩,
           pockets := ["stable"], cacheDir := "/var/cache", client := 0,
           database := fun _ => .ok [] } : Archive).baseURL)
      ∧ (acNoPorts.portsURL ≠ "" →
          sampleURLParse acNoPorts.portsURL =
          .ok ({ baseURL := ⟨"http://a.example"⟩, portsURL := ⟨"http://a.example"⟩,
                 pockets := ["stable"], cacheDir := "/var/cache", client := 0,
                 database := fun _ => .ok [] } : Archive).portsURL)) :=
  ⟨rfl, C8_ports_url_default sampleURLParse sampleNewConn "/var/cache" 0 0
    acNoPorts _ rfl⟩

/-- C9: a configuration error is fatal and process-scoped — no config
file, an entry without `base_url`, an unparseable URL, a failing database
connection, or zero configured archives all terminate startup before any
serving or refreshing begins (`main.go:118-187, 198-205`). -/
theorem C9_config_error_fatal (urlParse : String → Except String URL)
    (newConn : String → Except String DBConn) (client : Nat)
    (configFile : Option RawConfig)
    (h : configFile = none
      ∨ ∃ raw, configFile = some raw ∧
          (raw.archives = []
           ∨ ∃ ac ∈ raw.archives, badArchiveConf urlParse newConn ac)) :
    isFatal (mainStartup urlParse newConn client configFile) = true := by
  rcases h with rfl | ⟨raw, rfl, hbad⟩
  · rfl
  · rcases hbad with hempty | hbadmem
    · simp [mainStartup, parseConfig, hempty, parseConfigLoop, isFatal, Config.caches]
    · have herr := parseConfigLoop_bad urlParse newConn raw.cacheDirectory client
        raw.archives 0 hbadmem
      unfold mainStartup parseConfig
      cases hl : parseConfigLoop urlParse newConn raw.cacheDirectory client 0
          raw.archives with
      | error e => simp [hl, isFatal]
      | ok as => rw [hl] at herr; simp [isErrorX] at herr

/-- C9 witness: no configuration file found anywhere. -/
theorem C9_config_error_fatal_witness :
    ((none : Option RawConfig) = none
      ∨ ∃ raw, (none : Option RawConfig) = some raw ∧
          (raw.archives = []
           ∨ ∃ ac ∈ raw.archives, badArchiveConf sampleURLParse sampleNewConn ac))
    ∧ isFatal (mainStartup sampleURLParse sampleNewConn 0 none) = true :=
  ⟨Or.inl rfl,
   C9_config_error_fatal sampleURLParse sampleNewConn 0 none (Or.inl rfl)⟩
